import Mathlib

/-!
Shallow embedding of `src/swapout.c` (the SwapoutController core of jutils).

The program's interaction with the host is captured by an environment
record `env_t` that fixes the outcome of every filesystem primitive the
run can perform (existence tests, `stat`/`mkdir` outcomes per directory,
the readable content of the original limit file, success of each write,
and the per-iteration content of `/proc/<pid>/status`).  Each embedded
function returns, besides its C return value, the list of observable
events (directory creations, file writes, the original-limit capture,
samples, sleeps, and the restore/cleanup calls) so that temporal and
frame claims can be stated about the trace.

Byte buffers are modelled as `String` (one `Char` per byte; the limit
files hold ASCII).  C `long`/`long long` values are modelled as `Int`
(no claim here exercises overflow).  The C `double` poll interval is
modelled as `ℚ`: the only use the code makes of it is the exact
comparison `secs <= 0` inside `sleep_double`.
-/

namespace Swapout

/-- Control-group API generation, mirroring `cgroup_version_t`. -/
inductive cgroup_version_t
  | CGROUP_NONE
  | CGROUP_V1
  | CGROUP_V2
deriving DecidableEq, Repr

/-- Point-in-time memory reading, mirroring `proc_meminfo_t`. -/
structure proc_meminfo_t where
  pid : Int
  rss_kb : Int
  swap_kb : Int
deriving DecidableEq, Repr

/-- The only `errno` distinctions the code makes: the callers of
`ensure_dir` tolerate exactly `EEXIST`; `ENOTDIR` is set explicitly by
`ensure_dir`; every other value is collapsed into `EOTHER`. -/
inductive errno_t
  | EEXIST
  | ENOTDIR
  | EOTHER
deriving DecidableEq, Repr

/-- What `stat` reports for a directory path in `ensure_dir`. -/
inductive dir_state
  | isDir
  | nonDir
  | absent
deriving DecidableEq, Repr

/-- Outcome of a `mkdir` call, should `ensure_dir` attempt one. -/
inductive mkdir_result
  | ok
  | failEEXIST
  | failOther
deriving DecidableEq, Repr

/-- Host-side behaviour of one directory path: what `stat` sees and what
`mkdir` would do. -/
structure dir_outcome where
  stat : dir_state
  mkdirRes : mkdir_result
deriving DecidableEq, Repr

/-- Observable events of a run. `capture` is the read of the original
limit into `backup_limit`; `fwrite` is `write_file` (the flag records
whether the write succeeded); `restore_called` / `cleanup_called` mark
the entry into `restore_limit` / `cleanup_cgroup`. -/
inductive event
  | mkdir_ok (path : String)
  | mkdir_fail (path : String)
  | capture (val : String)
  | fwrite (path : String) (val : String) (ok : Bool)
  | sample_taken (i : Nat)
  | slept
  | restore_called
  | cleanup_called
  | rmdir_call (path : String) (ok : Bool)
deriving DecidableEq, Repr

/-- The host environment of one run: the outcome of every primitive
filesystem operation the program may perform. `status_file i` is the
line list of `/proc/<pid>/status` at the i-th poll (`none` = `fopen`
fails, i.e. the process vanished). -/
structure env_t where
  controllers_exists : Bool
  memory_dir_exists : Bool
  proc_pid_exists : Bool
  dir_cgroup : dir_outcome
  dir_base : dir_outcome
  dir_group : dir_outcome
  orig_limit : Option String
  procs_write_ok : Bool
  limit_write_ok : Bool
  restore_write_ok : Bool
  rmdir_ok : Bool
  status_file : Nat → Option (List String)

/-- `detect_cgroup_version`: v2 if `/sys/fs/cgroup/cgroup.controllers`
exists, else v1 if `/sys/fs/cgroup/memory` exists, else none. -/
def detect_cgroup_version (e : env_t) : cgroup_version_t :=
  if e.controllers_exists then .CGROUP_V2
  else if e.memory_dir_exists then .CGROUP_V1
  else .CGROUP_NONE

/-- `ensure_dir`: if `stat` succeeds, ok when a directory, else fail with
`ENOTDIR`; if `stat` fails, attempt `mkdir` and report its errno on
failure. Returns the C return value paired with `errno` (the errno
component is only meaningful on failure, exactly as the C callers use
it), plus the trace of attempted directory creations. -/
def ensure_dir (d : dir_outcome) (path : String) : (Int × errno_t) × List event :=
  match d.stat with
  | .isDir => ((0, .EOTHER), [])
  | .nonDir => ((-1, .ENOTDIR), [])
  | .absent =>
    match d.mkdirRes with
    | .ok => ((0, .EOTHER), [.mkdir_ok path])
    | .failEEXIST => ((-1, .EEXIST), [.mkdir_fail path])
    | .failOther => ((-1, .EOTHER), [.mkdir_fail path])

/-- The check every `ensure_dir` caller performs:
`ensure_dir(...) != 0 && errno != EEXIST`. -/
def ensure_dir_fatal (r : Int × errno_t) : Bool :=
  r.1 != 0 && r.2 != .EEXIST

/-- `rtrim`: strip trailing bytes `<= 0x20` in place. (Chars stand for
bytes; UTF-8 continuation bytes are `>= 0x80`, so the char-level and
byte-level trims agree.) -/
def rtrim (s : String) : String :=
  String.mk ((s.data.reverse.dropWhile (fun c => c.toNat ≤ 0x20)).reverse)

/-- `strncpy(dst, src, n)` into a zeroed buffer: keep the first `n`
bytes. -/
def strncpy_cap (n : Nat) (s : String) : String :=
  String.mk (s.data.take n)

/-- `cgroup_ctx_t`: version, group directory, membership path, limit
path, captured original limit text and the flag that it was captured.
The C `memset(ctx, 0, ...)` zero state is empty strings / false. -/
structure cgroup_ctx_t where
  ver : cgroup_version_t
  group_dir : String
  procs_path : String
  limit_path : String
  backup_limit : String
  had_backup : Bool
deriving DecidableEq, Repr

/-- The context after the backup step of `setup_cgroup_for_pid`: if the
limit file was readable, its text (rtrimmed, then `strncpy`-ed into the
127-byte-capacity buffer) is stored and `had_backup` set; otherwise
`had_backup` stays clear. -/
def backed_ctx (e : env_t) (ctx : cgroup_ctx_t) : cgroup_ctx_t :=
  match e.orig_limit with
  | some orig =>
    { ctx with backup_limit := strncpy_cap 127 (rtrim orig), had_backup := true }
  | none => { ctx with had_backup := false }

/-- The trace of the backup step: a `capture` of the stored text when
the limit file was readable, nothing otherwise. -/
def backup_events (e : env_t) : List event :=
  match e.orig_limit with
  | some orig => [event.capture (strncpy_cap 127 (rtrim orig))]
  | none => []

/-- The tail of `setup_cgroup_for_pid` shared by the v1 and v2 branches:
back up the original limit if readable, then write the pid into
`cgroup.procs`; the pid write failing makes setup return -1. -/
def setup_backup_and_migrate (e : env_t) (pid : Int) (ctx : cgroup_ctx_t)
    (evs : List event) : Int × cgroup_ctx_t × List event :=
  let ctx2 := backed_ctx e ctx
  let pidbuf := toString pid ++ "\n"
  let evw := event.fwrite ctx2.procs_path pidbuf e.procs_write_ok
  if e.procs_write_ok then (0, ctx2, evs ++ backup_events e ++ [evw])
  else (-1, ctx2, evs ++ backup_events e ++ [evw])

/-- `setup_cgroup_for_pid`: detect the version, create (tolerating
EEXIST) the root, the per-tool parent and the per-pid group directory,
compute the membership and limit paths, then back up the limit and
migrate the pid. Mirrors the C control flow: `group_dir` is filled in
by `snprintf` before the per-pid `ensure_dir`, so it stays set on the
later failure paths. -/
def setup_cgroup_for_pid (e : env_t) (pid : Int) : Int × cgroup_ctx_t × List event :=
  let ver := detect_cgroup_version e
  let ctx0 : cgroup_ctx_t := ⟨ver, "", "", "", "", false⟩
  if ver = .CGROUP_NONE then (-1, ctx0, [])
  else
    let pid_str := toString pid
    if ver = .CGROUP_V2 then
      let r1 := ensure_dir e.dir_cgroup "/sys/fs/cgroup"
      if ensure_dir_fatal r1.1 then (-1, ctx0, r1.2)
      else
        let r2 := ensure_dir e.dir_base "/sys/fs/cgroup/swapout"
        if ensure_dir_fatal r2.1 then (-1, ctx0, r1.2 ++ r2.2)
        else
          let gd := "/sys/fs/cgroup/swapout/" ++ pid_str
          let ctx1 := { ctx0 with group_dir := gd }
          let r3 := ensure_dir e.dir_group gd
          if ensure_dir_fatal r3.1 then (-1, ctx1, r1.2 ++ r2.2 ++ r3.2)
          else
            let ctx2 := { ctx1 with
              procs_path := gd ++ "/cgroup.procs",
              limit_path := gd ++ "/memory.high" }
            setup_backup_and_migrate e pid ctx2 (r1.2 ++ r2.2 ++ r3.2)
    else
      let r1 := ensure_dir e.dir_cgroup "/sys/fs/cgroup/memory"
      if ensure_dir_fatal r1.1 then (-1, ctx0, r1.2)
      else
        let r2 := ensure_dir e.dir_base "/sys/fs/cgroup/memory/swapout"
        if ensure_dir_fatal r2.1 then (-1, ctx0, r1.2 ++ r2.2)
        else
          let gd := "/sys/fs/cgroup/memory/swapout/" ++ pid_str
          let ctx1 := { ctx0 with group_dir := gd }
          let r3 := ensure_dir e.dir_group gd
          if ensure_dir_fatal r3.1 then (-1, ctx1, r1.2 ++ r2.2 ++ r3.2)
          else
            let ctx2 := { ctx1 with
              procs_path := gd ++ "/cgroup.procs",
              limit_path := gd ++ "/memory.limit_in_bytes" }
            setup_backup_and_migrate e pid ctx2 (r1.2 ++ r2.2 ++ r3.2)

/-- `apply_low_limit`: convert MB to bytes and write the
newline-terminated decimal string to the limit path (the v1 and v2
branches of the C code compute the same string). -/
def apply_low_limit (e : env_t) (ctx : cgroup_ctx_t) (limit_mb : Int) :
    Int × List event :=
  let buf :=
    if ctx.ver = .CGROUP_V2 then toString (limit_mb * 1024 * 1024) ++ "\n"
    else toString (limit_mb * 1024 * 1024) ++ "\n"
  let ev := event.fwrite ctx.limit_path buf e.limit_write_ok
  if e.limit_write_ok then (0, [ev]) else (-1, [ev])

/-- The value `restore_limit` chooses to write back: the captured backup
when present and non-empty (`ctx->had_backup && ctx->backup_limit[0]`),
otherwise `"max"` for v2 and the large v1 sentinel. -/
def restore_value (ctx : cgroup_ctx_t) : String :=
  if ctx.had_backup ∧ ctx.backup_limit ≠ "" then ctx.backup_limit
  else if ctx.ver = .CGROUP_V2 then "max"
  else "9223372036854771712"

/-- `restore_limit`: no filesystem action when the version is NONE;
otherwise write `restore_value` newline-terminated to the limit path.
A failed write is only reported, never escalated (the function returns
`void`). -/
def restore_limit (e : env_t) (ctx : cgroup_ctx_t) : List event :=
  if ctx.ver = .CGROUP_NONE then [event.restore_called]
  else [event.restore_called,
        event.fwrite ctx.limit_path (restore_value ctx ++ "\n") e.restore_write_ok]

/-- `cleanup_cgroup`: nothing when `group_dir` is empty, otherwise a
best-effort `rmdir` of the group directory. -/
def cleanup_cgroup (e : env_t) (ctx : cgroup_ctx_t) : List event :=
  if ctx.group_dir = "" then [event.cleanup_called]
  else [event.cleanup_called, event.rmdir_call ctx.group_dir e.rmdir_ok]

/-- The per-line kB parse of `read_proc_meminfo`: skip to the first
digit; if none exists the stored value is left unchanged (`none`),
otherwise `strtol` of the digit run. -/
def parse_kb_field (line : String) : Option Int :=
  let p := line.data.dropWhile (fun c => !c.isDigit)
  match p with
  | [] => none
  | _ =>
    some (Int.ofNat
      ((p.takeWhile Char.isDigit).foldl (fun acc c => acc * 10 + (c.toNat - 48)) 0))

/-- `strncmp(line, pre, strlen(pre)) == 0` for a literal `pre`. -/
def starts_with (pre line : String) : Bool :=
  pre.data.isPrefixOf line.data

/-- One `fgets` line of the status-file scan loop: a `VmRSS:` line
updates the rss accumulator, a `VmSwap:` line the swap accumulator,
anything else is ignored. The last matching line wins, as in the C
loop. -/
def meminfo_scan (acc : Int × Int) (line : String) : Int × Int :=
  if starts_with "VmRSS:" line then
    match parse_kb_field line with
    | some v => (v, acc.2)
    | none => acc
  else if starts_with "VmSwap:" line then
    match parse_kb_field line with
    | some v => (acc.1, v)
    | none => acc
  else acc

/-- `read_proc_meminfo`: `none` when `/proc/<pid>/status` cannot be
opened (the C function returns -1), otherwise fold the scan over all
lines starting from zeroed accumulators. `call_idx` indexes the
successive reads of the run. -/
def read_proc_meminfo (e : env_t) (pid : Int) (call_idx : Nat) :
    Option proc_meminfo_t :=
  match e.status_file call_idx with
  | none => none
  | some lines =>
    let r := lines.foldl meminfo_scan (0, 0)
    some { pid := pid, rss_kb := r.1, swap_kb := r.2 }

/-- `sleep_double`: returns without sleeping when `secs <= 0`, else
suspends once (one `slept` event). -/
def sleep_double (secs : ℚ) : List event :=
  if secs ≤ 0 then [] else [event.slept]

/-- The `while (iter < max_iter)` poll loop of `main`, with `fuel =
max_iter - iter` remaining iterations. Each iteration samples; an
unreadable status file or `rss_kb <= target` sets `done` and breaks
without sleeping; otherwise the iteration ends with `iter++` and the
sleep, so a run that exhausts the fuel sleeps after its last sample
too. Returns the C `done` flag and the trace. -/
def poll_from (e : env_t) (pid target_rss_kb : Int) (interval : ℚ) (iter : Nat) :
    Nat → Bool × List event
  | 0 => (false, [])
  | fuel + 1 =>
    match read_proc_meminfo e pid iter with
    | none => (true, [event.sample_taken iter])
    | some mi =>
      if mi.rss_kb ≤ target_rss_kb then (true, [event.sample_taken iter])
      else
        let r := poll_from e pid target_rss_kb interval (iter + 1) fuel
        (r.1, event.sample_taken iter :: (sleep_double interval ++ r.2))

/-- The run configuration after option parsing (`limit_mb`,
`target_rss_kb`, `interval`, `max_iter`, `quiet` of `main`). -/
structure run_config where
  limit_mb : Int
  target_rss_kb : Int
  interval : ℚ
  max_iter : Int
  quiet : Bool

/-- Option `-m`: non-positive values fall back to 8. -/
def parse_limit_mb (x : Int) : Int := if x ≤ 0 then 8 else x

/-- Option `-r`: non-positive values fall back to 16384. -/
def parse_target_rss_kb (x : Int) : Int := if x ≤ 0 then 16384 else x

/-- Option `-i`: non-positive values fall back to 1.0. -/
def parse_interval (x : ℚ) : ℚ := if x ≤ 0 then 1 else x

/-- Option `-n`: non-positive values fall back to 60. -/
def parse_max_iter (x : Int) : Int := if x ≤ 0 then 60 else x

/-- The defaults `main` starts from. -/
def default_config : run_config := ⟨8, 16384, 1, 60, false⟩

/-- A configuration every `main` run actually has: each numeric field
positive (the initial defaults are positive and each option assignment
replaces a non-positive parse by its default). -/
def valid_config (c : run_config) : Prop :=
  0 < c.limit_mb ∧ 0 < c.target_rss_kb ∧ 0 < c.interval ∧ 0 < c.max_iter

/-- Outcome of the `getopt_long` loop: ran through all options, saw
`-h` (usage, exit 0), or saw an unknown option (usage, exit 1). -/
inductive getopt_result
  | opt_done
  | opt_help
  | opt_bad
deriving DecidableEq, Repr

/-- `main` after option parsing: `pid_arg` is `atoi(argv[optind])` when
a positional argument is present. Exit code and the full event trace
of the run. -/
def main_run (e : env_t) (gr : getopt_result) (pid_arg : Option Int)
    (cfg : run_config) : Int × List event :=
  match gr with
  | .opt_help => (0, [])
  | .opt_bad => (1, [])
  | .opt_done =>
    match pid_arg with
    | none => (1, [])
    | some pid =>
      if pid ≤ 0 then (1, [])
      else if !e.proc_pid_exists then (1, [])
      else
        let s := setup_cgroup_for_pid e pid
        if s.1 ≠ 0 then (1, s.2.2)
        else
          let ctx := s.2.1
          let a := apply_low_limit e ctx cfg.limit_mb
          if a.1 ≠ 0 then
            (1, s.2.2 ++ a.2 ++ restore_limit e ctx ++ cleanup_cgroup e ctx)
          else
            let p := poll_from e pid cfg.target_rss_kb cfg.interval 0 cfg.max_iter.toNat
            (0, s.2.2 ++ a.2 ++ p.2 ++ restore_limit e ctx ++ cleanup_cgroup e ctx)

/-- Event classifiers for trace statements. -/
def is_restore_call (ev : event) : Bool :=
  match ev with | .restore_called => true | _ => false

def is_cleanup_call (ev : event) : Bool :=
  match ev with | .cleanup_called => true | _ => false

def is_sample (ev : event) : Bool :=
  match ev with | .sample_taken _ => true | _ => false

def is_sleep_ev (ev : event) : Bool :=
  match ev with | .slept => true | _ => false

def is_capture (ev : event) : Bool :=
  match ev with | .capture _ => true | _ => false

/-- A filesystem mutation: a created directory, an attempted file
write, or an attempted directory removal. -/
def is_mutation (ev : event) : Bool :=
  match ev with
  | .mkdir_ok _ => true
  | .mkdir_fail _ => true
  | .fwrite _ _ _ => true
  | .rmdir_call _ _ => true
  | _ => false

/-- A write to the given limit path. -/
def is_limit_write (lp : String) (ev : event) : Bool :=
  match ev with
  | .fwrite p _ _ => p = lp
  | _ => false

/-- Number of memory samples in a trace. -/
def num_samples (tr : List event) : Nat := tr.countP is_sample

/-- Number of sleeps in a trace. -/
def num_sleeps (tr : List event) : Nat := tr.countP is_sleep_ev

/-- The stopping test of one poll iteration, as a Boolean on the
environment: the status file is unreadable, or the sampled RSS is at or
below target. -/
def stop_b (e : env_t) (pid target : Int) (i : Nat) : Bool :=
  match read_proc_meminfo e pid i with
  | none => true
  | some mi => mi.rss_kb ≤ target

/-- Events that the setup phase can emit: directory creations, the
original-limit capture and file writes. -/
def phase_setup_ev (ev : event) : Bool :=
  match ev with
  | .mkdir_ok _ => true
  | .mkdir_fail _ => true
  | .capture _ => true
  | .fwrite _ _ _ => true
  | _ => false

theorem phase_setup_not_control {ev : event} (h : phase_setup_ev ev = true) :
    is_restore_call ev = false ∧ is_cleanup_call ev = false ∧
    is_sample ev = false ∧ is_sleep_ev ev = false := by
  cases ev <;> simp_all [phase_setup_ev, is_restore_call, is_cleanup_call,
    is_sample, is_sleep_ev]

theorem ensure_dir_events (d : dir_outcome) (p : String) :
    ∀ ev ∈ (ensure_dir d p).2, phase_setup_ev ev = true := by
  rcases d with ⟨st, mk⟩
  cases st <;> cases mk <;> simp [ensure_dir, phase_setup_ev]

theorem backup_events_setup (e : env_t) :
    ∀ ev ∈ backup_events e, phase_setup_ev ev = true := by
  intro ev hev
  unfold backup_events at hev
  split at hev <;> simp at hev
  subst hev; rfl

/-- The trace of the setup tail: the inherited events, then the capture
(if any), then the pid write. -/
theorem setup_backup_and_migrate_trace (e : env_t) (pid : Int)
    (ctx : cgroup_ctx_t) (evs : List event) :
    (setup_backup_and_migrate e pid ctx evs).2.2 =
      evs ++ backup_events e ++
        [event.fwrite (backed_ctx e ctx).procs_path (toString pid ++ "\n")
          e.procs_write_ok] := by
  unfold setup_backup_and_migrate
  split <;> rfl

theorem setup_backup_and_migrate_events (e : env_t) (pid : Int)
    (ctx : cgroup_ctx_t) (evs : List event)
    (h : ∀ ev ∈ evs, phase_setup_ev ev = true) :
    ∀ ev ∈ (setup_backup_and_migrate e pid ctx evs).2.2,
      phase_setup_ev ev = true := by
  intro ev hev
  rw [setup_backup_and_migrate_trace, List.mem_append, List.mem_append] at hev
  rcases hev with (hev | hev) | hev
  · exact h ev hev
  · exact backup_events_setup e ev hev
  · simp at hev; subst hev; rfl

theorem setup_events (e : env_t) (pid : Int) :
    ∀ ev ∈ (setup_cgroup_for_pid e pid).2.2, phase_setup_ev ev = true := by
  intro ev hev
  simp only [setup_cgroup_for_pid] at hev
  split at hev
  · simp at hev
  · split at hev
    all_goals (
      split at hev
      · exact ensure_dir_events _ _ ev hev
      · split at hev
        · rw [List.mem_append] at hev
          rcases hev with h | h
          · exact ensure_dir_events _ _ ev h
          · exact ensure_dir_events _ _ ev h
        · split at hev
          · rw [List.mem_append, List.mem_append] at hev
            rcases hev with (h | h) | h
            · exact ensure_dir_events _ _ ev h
            · exact ensure_dir_events _ _ ev h
            · exact ensure_dir_events _ _ ev h
          · refine setup_backup_and_migrate_events e pid _ _ ?_ ev hev
            intro x hx
            rw [List.mem_append, List.mem_append] at hx
            rcases hx with (h | h) | h
            · exact ensure_dir_events _ _ x h
            · exact ensure_dir_events _ _ x h
            · exact ensure_dir_events _ _ x h)

theorem poll_events (e : env_t) (pid target : Int) (ivl : ℚ) :
    ∀ (f i : Nat), ∀ ev ∈ (poll_from e pid target ivl i f).2,
      (is_sample ev || is_sleep_ev ev) = true := by
  intro f
  induction f with
  | zero => intro i ev hev; simp [poll_from] at hev
  | succ f ih =>
    intro i ev hev
    simp only [poll_from] at hev
    cases hmem : read_proc_meminfo e pid i with
    | none =>
      simp only [hmem] at hev
      simp at hev; subst hev; rfl
    | some mi =>
      simp only [hmem] at hev
      split at hev
      · simp at hev; subst hev; rfl
      · simp only [List.mem_cons, List.mem_append] at hev
        rcases hev with hev | hev | hev
        · subst hev; rfl
        · unfold sleep_double at hev
          split at hev
          · simp at hev
          · simp at hev; subst hev; rfl
        · exact ih (i + 1) ev hev

/-- The events of `restore_limit` after the entry marker. -/
def restore_tail (e : env_t) (ctx : cgroup_ctx_t) : List event :=
  if ctx.ver = .CGROUP_NONE then []
  else [event.fwrite ctx.limit_path (restore_value ctx ++ "\n") e.restore_write_ok]

theorem restore_limit_trace (e : env_t) (ctx : cgroup_ctx_t) :
    restore_limit e ctx = event.restore_called :: restore_tail e ctx := by
  unfold restore_limit restore_tail
  split <;> rfl

/-- The events of `cleanup_cgroup` after the entry marker. -/
def cleanup_tail (e : env_t) (ctx : cgroup_ctx_t) : List event :=
  if ctx.group_dir = "" then []
  else [event.rmdir_call ctx.group_dir e.rmdir_ok]

theorem cleanup_cgroup_trace (e : env_t) (ctx : cgroup_ctx_t) :
    cleanup_cgroup e ctx = event.cleanup_called :: cleanup_tail e ctx := by
  unfold cleanup_cgroup cleanup_tail
  split <;> rfl

theorem restore_tail_counts (e : env_t) (ctx : cgroup_ctx_t) :
    (restore_tail e ctx).countP is_restore_call = 0 ∧
    (restore_tail e ctx).countP is_cleanup_call = 0 := by
  unfold restore_tail
  split <;> simp [is_restore_call, is_cleanup_call]

theorem cleanup_tail_counts (e : env_t) (ctx : cgroup_ctx_t) :
    (cleanup_tail e ctx).countP is_restore_call = 0 ∧
    (cleanup_tail e ctx).countP is_cleanup_call = 0 := by
  unfold cleanup_tail
  split <;> simp [is_restore_call, is_cleanup_call]

/-- The single write attempt of `apply_low_limit` (the v1 and v2 branches
build the same string). -/
theorem apply_low_limit_trace (e : env_t) (ctx : cgroup_ctx_t) (limit_mb : Int) :
    (apply_low_limit e ctx limit_mb).2 =
      [event.fwrite ctx.limit_path (toString (limit_mb * 1024 * 1024) ++ "\n")
        e.limit_write_ok] := by
  unfold apply_low_limit
  split <;> split <;> rfl

theorem sample_sleep_not_control {ev : event}
    (h : (is_sample ev || is_sleep_ev ev) = true) :
    is_restore_call ev = false ∧ is_cleanup_call ev = false ∧
    is_capture ev = false := by
  cases ev <;> simp_all [is_sample, is_sleep_ev, is_restore_call,
    is_cleanup_call, is_capture]

theorem setup_countP_restore (e : env_t) (pid : Int) :
    (setup_cgroup_for_pid e pid).2.2.countP is_restore_call = 0 :=
  List.countP_eq_zero.mpr fun ev hev => by
    simp [(phase_setup_not_control (setup_events e pid ev hev)).1]

theorem setup_countP_cleanup (e : env_t) (pid : Int) :
    (setup_cgroup_for_pid e pid).2.2.countP is_cleanup_call = 0 :=
  List.countP_eq_zero.mpr fun ev hev => by
    simp [(phase_setup_not_control (setup_events e pid ev hev)).2.1]

theorem poll_countP_restore (e : env_t) (pid target : Int) (ivl : ℚ)
    (i f : Nat) :
    (poll_from e pid target ivl i f).2.countP is_restore_call = 0 :=
  List.countP_eq_zero.mpr fun ev hev => by
    simp [(sample_sleep_not_control (poll_events e pid target ivl f i ev hev)).1]

theorem poll_countP_cleanup (e : env_t) (pid target : Int) (ivl : ℚ)
    (i f : Nat) :
    (poll_from e pid target ivl i f).2.countP is_cleanup_call = 0 :=
  List.countP_eq_zero.mpr fun ev hev => by
    simp [(sample_sleep_not_control
      (poll_events e pid target ivl f i ev hev)).2.1]

/-- Reduction of `main_run` for a run that gets past the limit
application: the trace is setup, apply, poll, restore, cleanup in that
order, and the exit code is 0. -/
theorem main_run_after_apply (e : env_t) (pid : Int) (cfg : run_config)
    (hpid : 0 < pid) (hproc : e.proc_pid_exists = true)
    (hsetup : (setup_cgroup_for_pid e pid).1 = 0)
    (happly : e.limit_write_ok = true) :
    main_run e .opt_done (some pid) cfg =
      (0, (setup_cgroup_for_pid e pid).2.2
          ++ (apply_low_limit e (setup_cgroup_for_pid e pid).2.1 cfg.limit_mb).2
          ++ (poll_from e pid cfg.target_rss_kb cfg.interval 0 cfg.max_iter.toNat).2
          ++ restore_limit e (setup_cgroup_for_pid e pid).2.1
          ++ cleanup_cgroup e (setup_cgroup_for_pid e pid).2.1) := by
  have h1 : ¬ pid ≤ 0 := not_le.mpr hpid
  have h2 : (apply_low_limit e (setup_cgroup_for_pid e pid).2.1 cfg.limit_mb).1 = 0 := by
    unfold apply_low_limit
    simp [happly]
  simp only [main_run, h1, if_false, hproc, Bool.not_true, hsetup, h2,
    ne_eq, not_true_eq_false, ite_false, not_false_eq_true]
  simp

/-- An environment in which everything needed for a full run works:
cgroup v2, pre-existing root, creatable directories, readable original
limit, successful writes — but a failing restore write, and a target
process whose RSS drops below the default target at the second sample. -/
def env_good : env_t := {
  controllers_exists := true
  memory_dir_exists := false
  proc_pid_exists := true
  dir_cgroup := ⟨.isDir, .ok⟩
  dir_base := ⟨.absent, .ok⟩
  dir_group := ⟨.absent, .ok⟩
  orig_limit := some "max\n"
  procs_write_ok := true
  limit_write_ok := true
  restore_write_ok := false
  rmdir_ok := true
  status_file := fun i =>
    if i = 0 then some ["VmRSS:\t20000 kB", "VmSwap:\t0 kB"]
    else some ["VmRSS:\t100 kB", "VmSwap:\t19900 kB"] }

/-- C1: in every run in which the memory ceiling write succeeds — for
any stopping state of the poll loop (Converged, ProcessVanished or
TimedOut, i.e. for every `status_file` oracle) — the trace contains
exactly one `restore_limit` call and exactly one `cleanup_cgroup` call,
the restore before the cleanup; the restore write outcome
(`restore_write_ok`) is unconstrained, so a failed restore does not
prevent cleanup. -/
theorem claim_C1_restore_then_cleanup_once (e : env_t) (pid : Int)
    (cfg : run_config) (hpid : 0 < pid) (hproc : e.proc_pid_exists = true)
    (hsetup : (setup_cgroup_for_pid e pid).1 = 0)
    (happly : e.limit_write_ok = true) :
    (main_run e .opt_done (some pid) cfg).2.countP is_restore_call = 1 ∧
    (main_run e .opt_done (some pid) cfg).2.countP is_cleanup_call = 1 ∧
    ∃ u v w, (main_run e .opt_done (some pid) cfg).2 =
      u ++ event.restore_called :: (v ++ event.cleanup_called :: w) := by
  have hm := main_run_after_apply e pid cfg hpid hproc hsetup happly
  rw [hm]
  dsimp only
  refine ⟨?_, ?_, ?_⟩
  · simp [List.countP_append, apply_low_limit_trace, restore_limit_trace,
      cleanup_cgroup_trace, setup_countP_restore, poll_countP_restore,
      (restore_tail_counts e _).1, (cleanup_tail_counts e _).1,
      is_restore_call, List.countP_cons]
  · simp [List.countP_append, apply_low_limit_trace, restore_limit_trace,
      cleanup_cgroup_trace, setup_countP_cleanup, poll_countP_cleanup,
      (restore_tail_counts e _).2, (cleanup_tail_counts e _).2,
      is_cleanup_call, List.countP_cons]
  · refine ⟨(setup_cgroup_for_pid e pid).2.2
        ++ (apply_low_limit e (setup_cgroup_for_pid e pid).2.1 cfg.limit_mb).2
        ++ (poll_from e pid cfg.target_rss_kb cfg.interval 0 cfg.max_iter.toNat).2,
      restore_tail e (setup_cgroup_for_pid e pid).2.1,
      cleanup_tail e (setup_cgroup_for_pid e pid).2.1, ?_⟩
    rw [restore_limit_trace, cleanup_cgroup_trace]
    simp [List.append_assoc]

/-- Witness for C1: a concrete full run (with a failing restore write)
has exactly one restore and one cleanup, in that order. -/
theorem claim_C1_witness :
    (main_run env_good .opt_done (some 7) default_config).2.countP is_restore_call = 1 ∧
    (main_run env_good .opt_done (some 7) default_config).2.countP is_cleanup_call = 1 ∧
    ∃ u v w, (main_run env_good .opt_done (some 7) default_config).2 =
      u ++ event.restore_called :: (v ++ event.cleanup_called :: w) :=
  claim_C1_restore_then_cleanup_once env_good 7 default_config (by decide)
    rfl (by decide) rfl

theorem sleep_double_countP_sample (ivl : ℚ) :
    (sleep_double ivl).countP is_sample = 0 := by
  unfold sleep_double
  split <;> simp [is_sample]

/-- Reduction of the poll loop when the i-th sample stops it. -/
theorem poll_from_stop (e : env_t) (pid target : Int) (ivl : ℚ) (i f : Nat)
    (h : stop_b e pid target i = true) :
    poll_from e pid target ivl i (f + 1) = (true, [event.sample_taken i]) := by
  unfold stop_b at h
  simp only [poll_from]
  cases hmem : read_proc_meminfo e pid i with
  | none => rfl
  | some mi =>
    rw [hmem] at h
    have h' : decide (mi.rss_kb ≤ target) = true := h
    show (if mi.rss_kb ≤ target then ((true : Bool), [event.sample_taken i])
      else ((poll_from e pid target ivl (i + 1) f).1,
        event.sample_taken i ::
          (sleep_double ivl ++ (poll_from e pid target ivl (i + 1) f).2))) =
      (true, [event.sample_taken i])
    rw [if_pos (of_decide_eq_true h')]

/-- Reduction of the poll loop when the i-th sample does not stop it. -/
theorem poll_from_continue (e : env_t) (pid target : Int) (ivl : ℚ) (i f : Nat)
    (h : stop_b e pid target i = false) :
    poll_from e pid target ivl i (f + 1) =
      ((poll_from e pid target ivl (i + 1) f).1,
        event.sample_taken i ::
          (sleep_double ivl ++ (poll_from e pid target ivl (i + 1) f).2)) := by
  unfold stop_b at h
  simp only [poll_from]
  cases hmem : read_proc_meminfo e pid i with
  | none => rw [hmem] at h; cases h
  | some mi =>
    rw [hmem] at h
    have h' : decide (mi.rss_kb ≤ target) = false := h
    show (if mi.rss_kb ≤ target then ((true : Bool), [event.sample_taken i])
      else ((poll_from e pid target ivl (i + 1) f).1,
        event.sample_taken i ::
          (sleep_double ivl ++ (poll_from e pid target ivl (i + 1) f).2))) = _
    rw [if_neg (of_decide_eq_false h')]

theorem poll_from_stop_trace (e : env_t) (pid target : Int) (ivl : ℚ)
    (i f : Nat) (h : stop_b e pid target i = true) :
    (poll_from e pid target ivl i (f + 1)).2 = [event.sample_taken i] := by
  rw [poll_from_stop e pid target ivl i f h]

theorem poll_from_continue_trace (e : env_t) (pid target : Int) (ivl : ℚ)
    (i f : Nat) (h : stop_b e pid target i = false) :
    (poll_from e pid target ivl i (f + 1)).2 =
      event.sample_taken i ::
        (sleep_double ivl ++ (poll_from e pid target ivl (i + 1) f).2) := by
  rw [poll_from_continue e pid target ivl i f h]

theorem num_samples_stop (e : env_t) (pid target : Int) (ivl : ℚ) (i f : Nat)
    (h : stop_b e pid target i = true) :
    num_samples (poll_from e pid target ivl i (f + 1)).2 = 1 := by
  rw [num_samples, poll_from_stop_trace e pid target ivl i f h]
  rfl

theorem num_samples_continue (e : env_t) (pid target : Int) (ivl : ℚ)
    (i f : Nat) (h : stop_b e pid target i = false) :
    num_samples (poll_from e pid target ivl i (f + 1)).2 =
      num_samples (poll_from e pid target ivl (i + 1) f).2 + 1 := by
  rw [num_samples, num_samples, poll_from_continue_trace e pid target ivl i f h]
  rw [List.countP_cons, List.countP_append, sleep_double_countP_sample]
  simp [is_sample]

/-- The poll loop performs at most `fuel` samples. -/
theorem poll_samples_le (e : env_t) (pid target : Int) (ivl : ℚ) :
    ∀ (f i : Nat), num_samples (poll_from e pid target ivl i f).2 ≤ f := by
  intro f
  induction f with
  | zero => intro i; simp [poll_from, num_samples]
  | succ f ih =>
    intro i
    cases hstop : stop_b e pid target i with
    | true => rw [num_samples_stop e pid target ivl i f hstop]; omega
    | false =>
      rw [num_samples_continue e pid target ivl i f hstop]
      have h := ih (i + 1)
      omega

theorem stop_b_iff (e : env_t) (pid target : Int) (k : Nat) :
    stop_b e pid target k = true ↔
      (read_proc_meminfo e pid k = none ∨
        ∃ mi, read_proc_meminfo e pid k = some mi ∧ mi.rss_kb ≤ target) := by
  unfold stop_b
  cases h : read_proc_meminfo e pid k <;> simp [h]

/-- The poll loop performs fewer than `fuel` samples exactly when one of
the first `fuel - 1` candidate samples already meets a stopping
condition. -/
theorem poll_samples_lt_iff (e : env_t) (pid target : Int) (ivl : ℚ) :
    ∀ (f i : Nat),
      num_samples (poll_from e pid target ivl i f).2 < f ↔
        ∃ k, k + 1 < f ∧ stop_b e pid target (i + k) = true := by
  intro f
  induction f with
  | zero => intro i; simp [poll_from, num_samples]
  | succ f ih =>
    intro i
    cases hstop : stop_b e pid target i with
    | true =>
      rw [num_samples_stop e pid target ivl i f hstop]
      constructor
      · intro h
        exact ⟨0, by omega, by rwa [Nat.add_zero]⟩
      · intro ⟨k, hk, _⟩
        omega
    | false =>
      rw [num_samples_continue e pid target ivl i f hstop]
      have hih := ih (i + 1)
      constructor
      · intro h
        obtain ⟨k, hk, hs⟩ := hih.mp (by omega)
        refine ⟨k + 1, by omega, ?_⟩
        have hshift : i + 1 + k = i + (k + 1) := by omega
        rwa [hshift] at hs
      · intro ⟨k, hk, hs⟩
        cases k with
        | zero =>
          rw [Nat.add_zero, hstop] at hs
          cases hs
        | succ k =>
          have hshift : i + (k + 1) = i + 1 + k := by omega
          rw [hshift] at hs
          have := hih.mpr ⟨k, by omega, hs⟩
          omega

theorem setup_countP_sample (e : env_t) (pid : Int) :
    (setup_cgroup_for_pid e pid).2.2.countP is_sample = 0 :=
  List.countP_eq_zero.mpr fun ev hev => by
    simp [(phase_setup_not_control (setup_events e pid ev hev)).2.2.1]

theorem apply_countP_sample (e : env_t) (ctx : cgroup_ctx_t) (m : Int) :
    (apply_low_limit e ctx m).2.countP is_sample = 0 := by
  rw [apply_low_limit_trace]
  simp [is_sample]

theorem restore_countP_sample (e : env_t) (ctx : cgroup_ctx_t) :
    (restore_limit e ctx).countP is_sample = 0 := by
  rw [restore_limit_trace]
  unfold restore_tail
  split <;> simp [is_sample]

theorem cleanup_countP_sample (e : env_t) (ctx : cgroup_ctx_t) :
    (cleanup_cgroup e ctx).countP is_sample = 0 := by
  rw [cleanup_cgroup_trace]
  unfold cleanup_tail
  split <;> simp [is_sample]

/-- In a run that reaches the poll loop, all samples of the whole trace
come from the loop. -/
theorem main_run_num_samples (e : env_t) (pid : Int) (cfg : run_config)
    (hpid : 0 < pid) (hproc : e.proc_pid_exists = true)
    (hsetup : (setup_cgroup_for_pid e pid).1 = 0)
    (happly : e.limit_write_ok = true) :
    num_samples (main_run e .opt_done (some pid) cfg).2 =
      num_samples
        (poll_from e pid cfg.target_rss_kb cfg.interval 0 cfg.max_iter.toNat).2 := by
  rw [main_run_after_apply e pid cfg hpid hproc hsetup happly]
  dsimp only
  unfold num_samples
  rw [List.countP_append, List.countP_append, List.countP_append,
    List.countP_append, setup_countP_sample, apply_countP_sample,
    restore_countP_sample, cleanup_countP_sample]
  omega

/-- C3: in a run with `maxIterations = N` that reaches the poll loop,
the trace holds at most `N` samples, and strictly fewer than `N` exactly
when some sample index `k` with `k + 1 < N` meets a stopping condition:
the status file unreadable there (ProcessVanished), or the sampled RSS
at or below the target (Converged). -/
theorem claim_C3_sample_bound (e : env_t) (pid : Int) (cfg : run_config)
    (hpid : 0 < pid) (hproc : e.proc_pid_exists = true)
    (hsetup : (setup_cgroup_for_pid e pid).1 = 0)
    (happly : e.limit_write_ok = true) :
    num_samples (main_run e .opt_done (some pid) cfg).2 ≤ cfg.max_iter.toNat ∧
    (num_samples (main_run e .opt_done (some pid) cfg).2 < cfg.max_iter.toNat ↔
      ∃ k, k + 1 < cfg.max_iter.toNat ∧
        (read_proc_meminfo e pid k = none ∨
          ∃ mi, read_proc_meminfo e pid k = some mi ∧
            mi.rss_kb ≤ cfg.target_rss_kb)) := by
  have hsum := main_run_num_samples e pid cfg hpid hproc hsetup happly
  constructor
  · rw [hsum]
    exact poll_samples_le e pid cfg.target_rss_kb cfg.interval _ 0
  · rw [hsum,
      poll_samples_lt_iff e pid cfg.target_rss_kb cfg.interval cfg.max_iter.toNat 0]
    constructor
    · intro ⟨k, hk, hs⟩
      rw [Nat.zero_add] at hs
      exact ⟨k, hk, (stop_b_iff e pid cfg.target_rss_kb k).mp hs⟩
    · intro ⟨k, hk, hs⟩
      refine ⟨k, hk, ?_⟩
      rw [Nat.zero_add]
      exact (stop_b_iff e pid cfg.target_rss_kb k).mpr hs

/-- Witness for C3: the concrete run (convergence at the second sample,
default `max_iter = 60`) takes at most 60 samples, and fewer than 60
exactly because sample 1 already converges. -/
theorem claim_C3_witness :
    num_samples (main_run env_good .opt_done (some 7) default_config).2 ≤
      default_config.max_iter.toNat ∧
    (num_samples (main_run env_good .opt_done (some 7) default_config).2 <
        default_config.max_iter.toNat ↔
      ∃ k, k + 1 < default_config.max_iter.toNat ∧
        (read_proc_meminfo env_good 7 k = none ∨
          ∃ mi, read_proc_meminfo env_good 7 k = some mi ∧
            mi.rss_kb ≤ default_config.target_rss_kb)) :=
  claim_C3_sample_bound env_good 7 default_config (by decide) rfl (by decide) rfl

/-- Like `env_good` but the target process's RSS never drops and every
write succeeds: runs against it time out. -/
def env_hot : env_t := { env_good with
  dir_base := ⟨.isDir, .ok⟩
  dir_group := ⟨.isDir, .ok⟩
  restore_write_ok := true
  status_file := fun _ => some ["VmRSS:\t20000 kB", "VmSwap:\t0 kB"] }

/-- A configuration with `max_iter = 1` (as from `-n 1`). -/
def cfg_one : run_config := ⟨8, 16384, 1, 1, false⟩

theorem sleep_double_pos (ivl : ℚ) (h : 0 < ivl) :
    sleep_double ivl = [event.slept] := by
  unfold sleep_double
  rw [if_neg (not_le.mpr h)]

/-- The sleep pattern of the poll loop, for a positive interval: the
trace starts with a sample (no sleep before the first); a loop that
stops early ends on its stopping sample; a loop that exhausts its fuel
ends on a sleep (the code sleeps after the final sample too); the sleep
count is one less than the sample count on early stop and equal to it on
fuel exhaustion; and an early-stopped loop took at least one sample. -/
theorem poll_sleep_shape (e : env_t) (pid target : Int) (ivl : ℚ)
    (hivl : 0 < ivl) :
    ∀ (f i : Nat),
    (∀ ev, (poll_from e pid target ivl i f).2.head? = some ev →
      is_sample ev = true) ∧
    ((poll_from e pid target ivl i f).1 = true →
      ∃ j, (poll_from e pid target ivl i f).2.getLast? =
        some (event.sample_taken j)) ∧
    ((poll_from e pid target ivl i f).1 = false → 0 < f →
      (poll_from e pid target ivl i f).2.getLast? = some event.slept) ∧
    num_sleeps (poll_from e pid target ivl i f).2 =
      (if (poll_from e pid target ivl i f).1 = true then
        num_samples (poll_from e pid target ivl i f).2 - 1
      else num_samples (poll_from e pid target ivl i f).2) ∧
    ((poll_from e pid target ivl i f).1 = true →
      1 ≤ num_samples (poll_from e pid target ivl i f).2) := by
  intro f
  induction f with
  | zero =>
    intro i
    refine ⟨?_, ?_, ?_, ?_, ?_⟩ <;> simp [poll_from, num_sleeps, num_samples]
  | succ f ih =>
    intro i
    cases hstop : stop_b e pid target i with
    | true =>
      rw [poll_from_stop e pid target ivl i f hstop]
      refine ⟨?_, ?_, ?_, ?_, ?_⟩ <;>
        simp [num_sleeps, num_samples, is_sample, is_sleep_ev]
    | false =>
      have hred := poll_from_continue e pid target ivl i f hstop
      have htr := poll_from_continue_trace e pid target ivl i f hstop
      rw [sleep_double_pos ivl hivl] at htr
      have hdone : (poll_from e pid target ivl i (f + 1)).1 =
          (poll_from e pid target ivl (i + 1) f).1 := by
        rw [hred]
      obtain ⟨iha, ihb, ihc, ihd, ihe⟩ := ih (i + 1)
      have hns : num_samples (poll_from e pid target ivl i (f + 1)).2 =
          num_samples (poll_from e pid target ivl (i + 1) f).2 + 1 :=
        num_samples_continue e pid target ivl i f hstop
      have hsl : num_sleeps (poll_from e pid target ivl i (f + 1)).2 =
          num_sleeps (poll_from e pid target ivl (i + 1) f).2 + 1 := by
        rw [num_sleeps, num_sleeps, htr]
        simp [List.cons_append, List.nil_append, List.countP_cons, is_sleep_ev]
      refine ⟨?_, ?_, ?_, ?_, ?_⟩
      · intro ev hev
        rw [htr] at hev
        simp at hev
        subst hev; rfl
      · intro hd
        rw [hdone] at hd
        obtain ⟨j, hj⟩ := ihb hd
        refine ⟨j, ?_⟩
        rw [htr]
        cases hl : (poll_from e pid target ivl (i + 1) f).2 with
        | nil => rw [hl] at hj; cases hj
        | cons x xs =>
          rw [hl] at hj
          simp only [List.cons_append, List.nil_append]
          rw [List.getLast?_cons_cons, List.getLast?_cons_cons]
          exact hj
      · intro hd _
        rw [hdone] at hd
        rw [htr]
        cases f with
        | zero =>
          simp [poll_from]
        | succ f' =>
          have hlast := ihc hd (Nat.succ_pos f')
          cases hl : (poll_from e pid target ivl (i + 1) (f' + 1)).2 with
          | nil => rw [hl] at hlast; cases hlast
          | cons x xs =>
            rw [hl] at hlast
            simp only [List.cons_append, List.nil_append]
            rw [List.getLast?_cons_cons, List.getLast?_cons_cons]
            exact hlast
      · rw [hsl, hns, hdone]
        cases hd : (poll_from e pid target ivl (i + 1) f).1 with
        | true =>
          rw [hd] at ihd
          simp only [if_true] at ihd ⊢
          have h1 := ihe hd
          omega
        | false =>
          rw [hd] at ihd
          simp only [Bool.false_eq_true, if_false] at ihd ⊢
          omega
      · intro _
        rw [hns]
        omega

/-- Counterexample to C5 as stated: with `max_iter = 1` and a process
whose RSS never reaches the target, the run times out and the loop
trace is `[sample 0, slept]` — the interval sleep IS performed after
the final (1st = maxIterations-th) sample of the timed-out run, both in
the loop trace and in the full run trace. -/
theorem claim_C5_counterexample :
    poll_from env_hot 5 16384 1 0 1 =
      (false, [event.sample_taken 0, event.slept]) ∧
    (main_run env_hot .opt_done (some 5) cfg_one).2 =
      [event.capture "max",
       event.fwrite "/sys/fs/cgroup/swapout/5/cgroup.procs" "5\n" true,
       event.fwrite "/sys/fs/cgroup/swapout/5/memory.high" "8388608\n" true,
       event.sample_taken 0, event.slept,
       event.restore_called,
       event.fwrite "/sys/fs/cgroup/swapout/5/memory.high" "max\n" true,
       event.cleanup_called,
       event.rmdir_call "/sys/fs/cgroup/swapout/5" true] :=
  ⟨rfl, rfl⟩

/-- C5 as amended: no sleep before the first sample and none after a
sample that stops the loop early (vanished or converged); but in a
timed-out run every sample, the final one included, is followed by one
interval sleep, so the trace ends with a sleep and the sleep count
equals the sample count (it is one less on an early stop). -/
theorem claim_C5_sleep_only_between_samples (e : env_t) (pid target : Int)
    (ivl : ℚ) (f i : Nat) (hivl : 0 < ivl) :
    (∀ ev, (poll_from e pid target ivl i f).2.head? = some ev →
      is_sample ev = true) ∧
    ((poll_from e pid target ivl i f).1 = true →
      ∃ j, (poll_from e pid target ivl i f).2.getLast? =
        some (event.sample_taken j)) ∧
    ((poll_from e pid target ivl i f).1 = false → 0 < f →
      (poll_from e pid target ivl i f).2.getLast? = some event.slept) ∧
    num_sleeps (poll_from e pid target ivl i f).2 =
      (if (poll_from e pid target ivl i f).1 = true then
        num_samples (poll_from e pid target ivl i f).2 - 1
      else num_samples (poll_from e pid target ivl i f).2) := by
  obtain ⟨a, b, c, d, _⟩ := poll_sleep_shape e pid target ivl hivl f i
  exact ⟨a, b, c, d⟩

/-- Witness for the amended C5 at a concrete timed-out run. -/
theorem claim_C5_witness :
    (∀ ev, (poll_from env_hot 5 16384 1 0 2).2.head? = some ev →
      is_sample ev = true) ∧
    ((poll_from env_hot 5 16384 1 0 2).1 = true →
      ∃ j, (poll_from env_hot 5 16384 1 0 2).2.getLast? =
        some (event.sample_taken j)) ∧
    ((poll_from env_hot 5 16384 1 0 2).1 = false → 0 < 2 →
      (poll_from env_hot 5 16384 1 0 2).2.getLast? = some event.slept) ∧
    num_sleeps (poll_from env_hot 5 16384 1 0 2).2 =
      (if (poll_from env_hot 5 16384 1 0 2).1 = true then
        num_samples (poll_from env_hot 5 16384 1 0 2).2 - 1
      else num_samples (poll_from env_hot 5 16384 1 0 2).2) :=
  claim_C5_sleep_only_between_samples env_hot 5 16384 1 2 0 (by norm_num)

/-- A directory outcome the `ensure_dir` callers tolerate: the path is
already a directory, or `mkdir` succeeds, or `mkdir` fails with
`EEXIST`. -/
def dir_tolerated (d : dir_outcome) : Bool :=
  match d.stat with
  | .isDir => true
  | .nonDir => false
  | .absent =>
    match d.mkdirRes with
    | .ok => true
    | .failEEXIST => true
    | .failOther => false

theorem ensure_dir_fatal_eq (d : dir_outcome) (p : String) :
    ensure_dir_fatal (ensure_dir d p).1 = !(dir_tolerated d) := by
  rcases d with ⟨st, mk⟩
  cases st <;> cases mk <;> rfl

theorem backed_ctx_ver (e : env_t) (ctx : cgroup_ctx_t) :
    (backed_ctx e ctx).ver = ctx.ver := by
  unfold backed_ctx
  cases e.orig_limit <;> rfl

theorem backed_ctx_group_dir (e : env_t) (ctx : cgroup_ctx_t) :
    (backed_ctx e ctx).group_dir = ctx.group_dir := by
  unfold backed_ctx
  cases e.orig_limit <;> rfl

theorem backed_ctx_procs_path (e : env_t) (ctx : cgroup_ctx_t) :
    (backed_ctx e ctx).procs_path = ctx.procs_path := by
  unfold backed_ctx
  cases e.orig_limit <;> rfl

theorem backed_ctx_limit_path (e : env_t) (ctx : cgroup_ctx_t) :
    (backed_ctx e ctx).limit_path = ctx.limit_path := by
  unfold backed_ctx
  cases e.orig_limit <;> rfl

theorem backed_ctx_had_backup (e : env_t) (ctx : cgroup_ctx_t) :
    (backed_ctx e ctx).had_backup = e.orig_limit.isSome := by
  unfold backed_ctx
  cases e.orig_limit <;> rfl

theorem backed_ctx_backup_limit (e : env_t) (ctx : cgroup_ctx_t) (s : String)
    (h : e.orig_limit = some s) :
    (backed_ctx e ctx).backup_limit = strncpy_cap 127 (rtrim s) := by
  unfold backed_ctx
  rw [h]

theorem setup_backup_and_migrate_ctx (e : env_t) (pid : Int)
    (ctx : cgroup_ctx_t) (evs : List event) :
    (setup_backup_and_migrate e pid ctx evs).2.1 = backed_ctx e ctx := by
  unfold setup_backup_and_migrate
  split <;> rfl

theorem setup_backup_and_migrate_code (e : env_t) (pid : Int)
    (ctx : cgroup_ctx_t) (evs : List event) :
    (setup_backup_and_migrate e pid ctx evs).1 =
      (if e.procs_write_ok then 0 else -1) := by
  unfold setup_backup_and_migrate
  split <;> simp [*]

/-- The return value of `setup_cgroup_for_pid` as a decision tree over
the environment: -1 on missing controller, on a fatal directory
outcome, or on a failed pid write; 0 otherwise. -/
theorem setup_code_eq (e : env_t) (pid : Int) :
    (setup_cgroup_for_pid e pid).1 =
      (if detect_cgroup_version e = .CGROUP_NONE then -1
      else if dir_tolerated e.dir_cgroup = false then -1
      else if dir_tolerated e.dir_base = false then -1
      else if dir_tolerated e.dir_group = false then -1
      else if e.procs_write_ok then 0 else -1) := by
  cases hv : detect_cgroup_version e <;>
    cases h1 : dir_tolerated e.dir_cgroup <;>
    cases h2 : dir_tolerated e.dir_base <;>
    cases h3 : dir_tolerated e.dir_group <;>
      simp [setup_cgroup_for_pid, ensure_dir_fatal_eq, hv, h1, h2, h3,
        setup_backup_and_migrate_code]

theorem setup_ok_conditions (e : env_t) (pid : Int)
    (h : (setup_cgroup_for_pid e pid).1 = 0) :
    detect_cgroup_version e ≠ .CGROUP_NONE ∧
    dir_tolerated e.dir_cgroup = true ∧ dir_tolerated e.dir_base = true ∧
    dir_tolerated e.dir_group = true ∧ e.procs_write_ok = true := by
  rw [setup_code_eq] at h
  by_cases hv : detect_cgroup_version e = .CGROUP_NONE
  · rw [if_pos hv] at h; exact absurd h (by decide)
  · rw [if_neg hv] at h
    cases h1 : dir_tolerated e.dir_cgroup with
    | false => rw [if_pos h1] at h; exact absurd h (by decide)
    | true =>
      rw [if_neg (by rw [h1]; decide)] at h
      cases h2 : dir_tolerated e.dir_base with
      | false => rw [if_pos h2] at h; exact absurd h (by decide)
      | true =>
        rw [if_neg (by rw [h2]; decide)] at h
        cases h3 : dir_tolerated e.dir_group with
        | false => rw [if_pos h3] at h; exact absurd h (by decide)
        | true =>
          rw [if_neg (by rw [h3]; decide)] at h
          cases hw : e.procs_write_ok with
          | false => rw [if_neg (by rw [hw]; decide)] at h; exact absurd h (by decide)
          | true => exact ⟨hv, rfl, rfl, rfl, rfl⟩

/-- With a v2 controller and no fatal directory outcome, setup reduces
to the shared backup-and-migrate tail on the fully composed context. -/
theorem setup_reduce_v2 (e : env_t) (pid : Int)
    (hv : detect_cgroup_version e = .CGROUP_V2)
    (h1 : dir_tolerated e.dir_cgroup = true)
    (h2 : dir_tolerated e.dir_base = true)
    (h3 : dir_tolerated e.dir_group = true) :
    setup_cgroup_for_pid e pid =
      setup_backup_and_migrate e pid
        ⟨.CGROUP_V2, "/sys/fs/cgroup/swapout/" ++ toString pid,
          "/sys/fs/cgroup/swapout/" ++ toString pid ++ "/cgroup.procs",
          "/sys/fs/cgroup/swapout/" ++ toString pid ++ "/memory.high",
          "", false⟩
        ((ensure_dir e.dir_cgroup "/sys/fs/cgroup").2 ++
          (ensure_dir e.dir_base "/sys/fs/cgroup/swapout").2 ++
          (ensure_dir e.dir_group
            ("/sys/fs/cgroup/swapout/" ++ toString pid)).2) := by
  simp [setup_cgroup_for_pid, ensure_dir_fatal_eq, hv, h1, h2, h3]

/-- The v1 analogue of `setup_reduce_v2`. -/
theorem setup_reduce_v1 (e : env_t) (pid : Int)
    (hv : detect_cgroup_version e = .CGROUP_V1)
    (h1 : dir_tolerated e.dir_cgroup = true)
    (h2 : dir_tolerated e.dir_base = true)
    (h3 : dir_tolerated e.dir_group = true) :
    setup_cgroup_for_pid e pid =
      setup_backup_and_migrate e pid
        ⟨.CGROUP_V1, "/sys/fs/cgroup/memory/swapout/" ++ toString pid,
          "/sys/fs/cgroup/memory/swapout/" ++ toString pid ++ "/cgroup.procs",
          "/sys/fs/cgroup/memory/swapout/" ++ toString pid ++ "/memory.limit_in_bytes",
          "", false⟩
        ((ensure_dir e.dir_cgroup "/sys/fs/cgroup/memory").2 ++
          (ensure_dir e.dir_base "/sys/fs/cgroup/memory/swapout").2 ++
          (ensure_dir e.dir_group
            ("/sys/fs/cgroup/memory/swapout/" ++ toString pid)).2) := by
  simp [setup_cgroup_for_pid, ensure_dir_fatal_eq, hv, h1, h2, h3]

/-- Context facts of a successful setup: the backup flag mirrors the
readability of the original limit, the stored backup is the rtrimmed
127-byte-truncated original text, and the context's version is the
detected one. -/
theorem setup_ctx_of_ok (e : env_t) (pid : Int)
    (h : (setup_cgroup_for_pid e pid).1 = 0) :
    (setup_cgroup_for_pid e pid).2.1.had_backup = e.orig_limit.isSome ∧
    (∀ s, e.orig_limit = some s →
      (setup_cgroup_for_pid e pid).2.1.backup_limit = strncpy_cap 127 (rtrim s)) ∧
    (setup_cgroup_for_pid e pid).2.1.ver = detect_cgroup_version e := by
  obtain ⟨hv, h1, h2, h3, _⟩ := setup_ok_conditions e pid h
  cases hvv : detect_cgroup_version e with
  | CGROUP_NONE => exact absurd hvv hv
  | CGROUP_V1 =>
    rw [setup_reduce_v1 e pid hvv h1 h2 h3, setup_backup_and_migrate_ctx]
    exact ⟨backed_ctx_had_backup e _,
      fun s hs => backed_ctx_backup_limit e _ s hs,
      by rw [backed_ctx_ver]⟩
  | CGROUP_V2 =>
    rw [setup_reduce_v2 e pid hvv h1 h2 h3, setup_backup_and_migrate_ctx]
    exact ⟨backed_ctx_had_backup e _,
      fun s hs => backed_ctx_backup_limit e _ s hs,
      by rw [backed_ctx_ver]⟩

/-- Reduction of `main_run` when the limit write fails: setup and the
failed apply, then immediately restore and cleanup, exit code 1. -/
theorem main_run_apply_fail (e : env_t) (pid : Int) (cfg : run_config)
    (hpid : 0 < pid) (hproc : e.proc_pid_exists = true)
    (hsetup : (setup_cgroup_for_pid e pid).1 = 0)
    (hLW : e.limit_write_ok = false) :
    main_run e .opt_done (some pid) cfg =
      (1, (setup_cgroup_for_pid e pid).2.2
          ++ (apply_low_limit e (setup_cgroup_for_pid e pid).2.1 cfg.limit_mb).2
          ++ restore_limit e (setup_cgroup_for_pid e pid).2.1
          ++ cleanup_cgroup e (setup_cgroup_for_pid e pid).2.1) := by
  have h1 : ¬ pid ≤ 0 := not_le.mpr hpid
  have h2 : (apply_low_limit e (setup_cgroup_for_pid e pid).2.1 cfg.limit_mb).1 = -1 := by
    unfold apply_low_limit
    simp [hLW]
  simp only [main_run, h1, if_false, hproc, Bool.not_true, hsetup, h2,
    ne_eq, not_true_eq_false, ite_false, not_false_eq_true]
  simp

/-- Every run with a successful setup reaches restore, and the restore
write of `restore_value` to the context's limit path is in the trace. -/
theorem restore_write_in_main (e : env_t) (pid : Int) (cfg : run_config)
    (hpid : 0 < pid) (hproc : e.proc_pid_exists = true)
    (hsetup : (setup_cgroup_for_pid e pid).1 = 0) :
    event.fwrite (setup_cgroup_for_pid e pid).2.1.limit_path
      (restore_value (setup_cgroup_for_pid e pid).2.1 ++ "\n") e.restore_write_ok
      ∈ (main_run e .opt_done (some pid) cfg).2 := by
  have hvne : (setup_cgroup_for_pid e pid).2.1.ver ≠ .CGROUP_NONE := by
    rw [(setup_ctx_of_ok e pid hsetup).2.2]
    exact (setup_ok_conditions e pid hsetup).1
  have hrt : restore_limit e (setup_cgroup_for_pid e pid).2.1 =
      [event.restore_called,
       event.fwrite (setup_cgroup_for_pid e pid).2.1.limit_path
         (restore_value (setup_cgroup_for_pid e pid).2.1 ++ "\n")
         e.restore_write_ok] := by
    unfold restore_limit
    rw [if_neg hvne]
  cases hLW : e.limit_write_ok with
  | false =>
    rw [main_run_apply_fail e pid cfg hpid hproc hsetup hLW]
    dsimp only
    simp [hrt]
  | true =>
    rw [main_run_after_apply e pid cfg hpid hproc hsetup hLW]
    dsimp only
    simp [hrt]

/-- An environment whose original limit file is readable but blank
(whitespace only), so the captured backup text is empty. -/
def env_blank : env_t := { env_good with
  orig_limit := some " \n"
  restore_write_ok := true }

/-- Counterexample to C2 as stated: in a run against `env_blank` the
original limit was readable and captured (as the empty string after
trimming), yet restore writes the sentinel `max`, not the captured
text. -/
theorem claim_C2_counterexample :
    (setup_cgroup_for_pid env_blank 9).2.1.had_backup = true ∧
    (setup_cgroup_for_pid env_blank 9).2.1.backup_limit = "" ∧
    restore_value (setup_cgroup_for_pid env_blank 9).2.1 = "max" ∧
    event.fwrite "/sys/fs/cgroup/swapout/9/memory.high" ("max" ++ "\n") true ∈
      (main_run env_blank .opt_done (some 9) default_config).2 ∧
    ("max" : String) ≠ "" := by
  refine ⟨rfl, rfl, rfl, by decide, by decide⟩

/-- C2 as amended: in every run that reaches restore, the value written
back to the limit file is the captured original limit text (rtrimmed,
truncated to 127 bytes) when that captured text is non-empty; when the
original was unreadable — and likewise when the captured text is empty —
it is the version-appropriate unlimited sentinel (`max` for v2, the
largest representable v1 limit value). -/
theorem claim_C2_restore_round_trip (e : env_t) (pid : Int) (cfg : run_config)
    (hpid : 0 < pid) (hproc : e.proc_pid_exists = true)
    (hsetup : (setup_cgroup_for_pid e pid).1 = 0) :
    (∀ s, e.orig_limit = some s → strncpy_cap 127 (rtrim s) ≠ "" →
      restore_value (setup_cgroup_for_pid e pid).2.1 = strncpy_cap 127 (rtrim s)) ∧
    (e.orig_limit = none →
      restore_value (setup_cgroup_for_pid e pid).2.1 =
        (if detect_cgroup_version e = .CGROUP_V2 then "max"
         else "9223372036854771712")) ∧
    event.fwrite (setup_cgroup_for_pid e pid).2.1.limit_path
      (restore_value (setup_cgroup_for_pid e pid).2.1 ++ "\n") e.restore_write_ok
      ∈ (main_run e .opt_done (some pid) cfg).2 := by
  obtain ⟨hhb, hbl, hv⟩ := setup_ctx_of_ok e pid hsetup
  refine ⟨?_, ?_, restore_write_in_main e pid cfg hpid hproc hsetup⟩
  · intro s hs hne
    unfold restore_value
    rw [if_pos ⟨by rw [hhb, hs]; rfl, by rw [hbl s hs]; exact hne⟩]
    exact hbl s hs
  · intro hn
    unfold restore_value
    rw [if_neg (fun hc => by rw [hhb, hn] at hc; exact absurd hc.1 (by decide)),
      hv]

/-- Witness for the amended C2: concrete run with original limit text
`max`, restored verbatim and written to the limit file. -/
theorem claim_C2_witness :
    (∀ s, env_good.orig_limit = some s → strncpy_cap 127 (rtrim s) ≠ "" →
      restore_value (setup_cgroup_for_pid env_good 7).2.1 =
        strncpy_cap 127 (rtrim s)) ∧
    (env_good.orig_limit = none →
      restore_value (setup_cgroup_for_pid env_good 7).2.1 =
        (if detect_cgroup_version env_good = .CGROUP_V2 then "max"
         else "9223372036854771712")) ∧
    event.fwrite (setup_cgroup_for_pid env_good 7).2.1.limit_path
      (restore_value (setup_cgroup_for_pid env_good 7).2.1 ++ "\n")
      env_good.restore_write_ok
      ∈ (main_run env_good .opt_done (some 7) default_config).2 :=
  claim_C2_restore_round_trip env_good 7 default_config (by decide) rfl (by decide)

/-- C9: when the original limit file was readable but its
whitespace-trimmed content is empty, the backup flag is set and restore
writes the version-appropriate unlimited sentinel, not the captured
empty text; the sentinel write is in the run's trace. -/
theorem claim_C9_blank_capture_restores_sentinel (e : env_t) (pid : Int)
    (cfg : run_config) (s : String)
    (hpid : 0 < pid) (hproc : e.proc_pid_exists = true)
    (hsetup : (setup_cgroup_for_pid e pid).1 = 0)
    (hread : e.orig_limit = some s) (hblank : rtrim s = "") :
    (setup_cgroup_for_pid e pid).2.1.had_backup = true ∧
    restore_value (setup_cgroup_for_pid e pid).2.1 =
      (if detect_cgroup_version e = .CGROUP_V2 then "max"
       else "9223372036854771712") ∧
    event.fwrite (setup_cgroup_for_pid e pid).2.1.limit_path
      (restore_value (setup_cgroup_for_pid e pid).2.1 ++ "\n") e.restore_write_ok
      ∈ (main_run e .opt_done (some pid) cfg).2 := by
  obtain ⟨hhb, hbl, hv⟩ := setup_ctx_of_ok e pid hsetup
  have hbempty : (setup_cgroup_for_pid e pid).2.1.backup_limit = "" := by
    rw [hbl s hread, hblank]
    rfl
  refine ⟨by rw [hhb, hread]; rfl, ?_,
    restore_write_in_main e pid cfg hpid hproc hsetup⟩
  unfold restore_value
  rw [if_neg (fun hc => absurd (hbempty ▸ hc.2) (by simp)), hv]

/-- Witness for C9 at the concrete blank-limit environment. -/
theorem claim_C9_witness :
    (setup_cgroup_for_pid env_blank 9).2.1.had_backup = true ∧
    restore_value (setup_cgroup_for_pid env_blank 9).2.1 =
      (if detect_cgroup_version env_blank = .CGROUP_V2 then "max"
       else "9223372036854771712") ∧
    event.fwrite (setup_cgroup_for_pid env_blank 9).2.1.limit_path
      (restore_value (setup_cgroup_for_pid env_blank 9).2.1 ++ "\n")
      env_blank.restore_write_ok
      ∈ (main_run env_blank .opt_done (some 9) default_config).2 :=
  claim_C9_blank_capture_restores_sentinel env_blank 9 default_config " \n"
    (by decide) rfl (by decide) rfl (by decide)

/-- An environment with no control-group markers at all. -/
def env_none : env_t := { env_good with
  controllers_exists := false
  memory_dir_exists := false }

/-- C7: when neither control-group version marker is present, the run
exits with code 1 and an empty trace — in particular, no directory was
created and no file write was even attempted. -/
theorem claim_C7_no_controller_no_mutation (e : env_t) (pid : Int)
    (cfg : run_config) (hpid : 0 < pid) (hproc : e.proc_pid_exists = true)
    (hc : e.controllers_exists = false) (hm : e.memory_dir_exists = false) :
    main_run e .opt_done (some pid) cfg = (1, []) ∧
    (main_run e .opt_done (some pid) cfg).2.countP is_mutation = 0 := by
  have hv : detect_cgroup_version e = .CGROUP_NONE := by
    unfold detect_cgroup_version
    rw [hc, hm]
    rfl
  have hs : setup_cgroup_for_pid e pid =
      (-1, ⟨.CGROUP_NONE, "", "", "", "", false⟩, []) := by
    simp [setup_cgroup_for_pid, hv]
  have hmain : main_run e .opt_done (some pid) cfg = (1, []) := by
    simp [main_run, not_le.mpr hpid, hproc, hs]
  exact ⟨hmain, by rw [hmain]; rfl⟩

/-- Witness for C7 at a concrete marker-free host. -/
theorem claim_C7_witness :
    main_run env_none .opt_done (some 3) default_config = (1, []) ∧
    (main_run env_none .opt_done (some 3) default_config).2.countP
      is_mutation = 0 :=
  claim_C7_no_controller_no_mutation env_none 3 default_config (by decide)
    rfl rfl rfl

/-- A directory that already exists before the run: `stat` sees a
directory, or — the race case — `stat` missed it but `mkdir` reports
`EEXIST`. -/
def dir_preexisting (d : dir_outcome) : Prop :=
  d.stat = .isDir ∨ (d.stat = .absent ∧ d.mkdirRes = .failEEXIST)

theorem dir_preexisting_tolerated (d : dir_outcome)
    (h : dir_preexisting d) : dir_tolerated d = true := by
  rcases d with ⟨st, mk⟩
  rcases h with h | ⟨ha, hm⟩
  · simp only at h
    subst h
    rfl
  · simp only at ha hm
    subst ha; subst hm
    rfl

/-- C8: when the root, the per-tool parent and the per-pid group
directory all pre-exist (directly, or surfacing as an `EEXIST` from
`mkdir`), provisioning never fails for that reason: it succeeds exactly
when the pid write succeeds. -/
theorem claim_C8_preexisting_dirs_not_an_error (e : env_t) (pid : Int)
    (h1 : dir_preexisting e.dir_cgroup) (h2 : dir_preexisting e.dir_base)
    (h3 : dir_preexisting e.dir_group)
    (hv : detect_cgroup_version e ≠ .CGROUP_NONE) :
    (setup_cgroup_for_pid e pid).1 = 0 ↔ e.procs_write_ok = true := by
  rw [setup_code_eq, if_neg hv,
    if_neg (by rw [dir_preexisting_tolerated _ h1]; decide),
    if_neg (by rw [dir_preexisting_tolerated _ h2]; decide),
    if_neg (by rw [dir_preexisting_tolerated _ h3]; decide)]
  cases hw : e.procs_write_ok <;> simp

/-- An environment where every directory in the chain is stale from a
prior run (one surfacing only as `EEXIST` at `mkdir` time). -/
def env_stale : env_t := { env_good with
  dir_base := ⟨.isDir, .ok⟩
  dir_group := ⟨.absent, .failEEXIST⟩ }

/-- Witness for C8: provisioning over the stale directories succeeds. -/
theorem claim_C8_witness :
    (setup_cgroup_for_pid env_stale 11).1 = 0 ↔
      env_stale.procs_write_ok = true :=
  claim_C8_preexisting_dirs_not_an_error env_stale 11 (Or.inl rfl) (Or.inl rfl)
    (Or.inr ⟨rfl, rfl⟩) (by decide)

theorem string_append_ne_empty (a b : String) (h : a ≠ "") : a ++ b ≠ "" := by
  intro hc
  apply h
  have hd := congrArg String.data hc
  rw [String.data_append] at hd
  exact String.ext (List.append_eq_nil.mp hd).1

/-- The `group_dir` of the produced context as a decision tree: filled
in as soon as both parent directory steps pass (it is set before the
per-pid `ensure_dir` and before the pid write, so later failures leave
it non-empty). -/
theorem setup_group_dir_eq (e : env_t) (pid : Int) :
    (setup_cgroup_for_pid e pid).2.1.group_dir =
      (if detect_cgroup_version e = .CGROUP_NONE then ""
      else if dir_tolerated e.dir_cgroup = false then ""
      else if dir_tolerated e.dir_base = false then ""
      else if detect_cgroup_version e = .CGROUP_V2 then
        "/sys/fs/cgroup/swapout/" ++ toString pid
      else "/sys/fs/cgroup/memory/swapout/" ++ toString pid) := by
  cases hv : detect_cgroup_version e <;>
    cases h1 : dir_tolerated e.dir_cgroup <;>
    cases h2 : dir_tolerated e.dir_base <;>
    cases h3 : dir_tolerated e.dir_group <;>
      simp [setup_cgroup_for_pid, ensure_dir_fatal_eq, hv, h1, h2, h3,
        setup_backup_and_migrate_ctx, backed_ctx_group_dir]

theorem setup_group_dir_ne_iff (e : env_t) (pid : Int) :
    (setup_cgroup_for_pid e pid).2.1.group_dir ≠ "" ↔
      (detect_cgroup_version e ≠ .CGROUP_NONE ∧
        dir_tolerated e.dir_cgroup = true ∧ dir_tolerated e.dir_base = true) := by
  rw [setup_group_dir_eq]
  have hv2 := string_append_ne_empty "/sys/fs/cgroup/swapout/" (toString pid)
    (by decide)
  have hv1 := string_append_ne_empty "/sys/fs/cgroup/memory/swapout/"
    (toString pid) (by decide)
  cases hv : detect_cgroup_version e <;>
    cases h1 : dir_tolerated e.dir_cgroup <;>
    cases h2 : dir_tolerated e.dir_base <;>
      simp [hv, h1, h2, hv2, hv1]

/-- Environment where the per-pid group directory cannot be created
(mkdir fails with a non-EEXIST error such as EPERM). -/
def env_badgroup : env_t := { env_good with
  dir_group := ⟨.absent, .failOther⟩ }

/-- Counterexample to C6 as stated: with the per-pid `mkdir` failing,
provisioning fails (returns -1) yet the produced context's `group_dir`
is non-empty — the field is filled in before the per-pid directory is
created, so the stated iff does not hold. -/
theorem claim_C6_counterexample :
    (setup_cgroup_for_pid env_badgroup 4).1 = -1 ∧
    (setup_cgroup_for_pid env_badgroup 4).2.1.group_dir =
      "/sys/fs/cgroup/swapout/4" ∧
    ("/sys/fs/cgroup/swapout/4" : String) ≠ "" :=
  ⟨rfl, rfl, by decide⟩

/-- A write attempt event. -/
def is_fwrite_ev (ev : event) : Bool :=
  match ev with | .fwrite _ _ _ => true | _ => false

theorem ensure_dir_mkdir_only (d : dir_outcome) (p : String) :
    ∀ ev ∈ (ensure_dir d p).2,
      is_fwrite_ev ev = false ∧ is_capture ev = false := by
  rcases d with ⟨st, mk⟩
  cases st <;> cases mk <;> simp [ensure_dir, is_fwrite_ev, is_capture]

theorem backup_events_no_fwrite (e : env_t) :
    ∀ ev ∈ backup_events e, is_fwrite_ev ev = false := by
  cases horig : e.orig_limit <;> simp [backup_events, horig, is_fwrite_ev]

theorem backup_events_capture_le (e : env_t) :
    (backup_events e).countP is_capture ≤ 1 := by
  cases horig : e.orig_limit <;> simp [backup_events, horig, is_capture]

/-- Split of the setup trace: an fwrite-free prefix holding all
captures, then a capture-free suffix, with at most one capture total. -/
theorem setup_trace_split (e : env_t) (pid : Int) :
    ∃ t1 t2, (setup_cgroup_for_pid e pid).2.2 = t1 ++ t2 ∧
      (∀ ev ∈ t1, is_fwrite_ev ev = false) ∧
      (∀ ev ∈ t2, is_capture ev = false) ∧
      t1.countP is_capture ≤ 1 := by
  have hmk : ∀ (d : dir_outcome) (p : String),
      (∀ ev ∈ (ensure_dir d p).2, is_fwrite_ev ev = false) ∧
      (ensure_dir d p).2.countP is_capture = 0 := by
    intro d p
    constructor
    · intro ev hev; exact (ensure_dir_mkdir_only d p ev hev).1
    · exact List.countP_eq_zero.mpr fun ev hev => by
        simp [(ensure_dir_mkdir_only d p ev hev).2]
  cases hv : detect_cgroup_version e with
  | CGROUP_NONE =>
    refine ⟨[], [], ?_, by simp, by simp, by simp⟩
    simp [setup_cgroup_for_pid, hv]
  | CGROUP_V2 =>
    cases h1 : dir_tolerated e.dir_cgroup with
    | false =>
      refine ⟨(ensure_dir e.dir_cgroup "/sys/fs/cgroup").2, [], ?_,
        (hmk _ _).1, by simp, by rw [(hmk _ _).2]; omega⟩
      simp [setup_cgroup_for_pid, ensure_dir_fatal_eq, hv, h1]
    | true =>
      cases h2 : dir_tolerated e.dir_base with
      | false =>
        refine ⟨(ensure_dir e.dir_cgroup "/sys/fs/cgroup").2 ++
          (ensure_dir e.dir_base "/sys/fs/cgroup/swapout").2, [], ?_, ?_,
          by simp, ?_⟩
        · simp [setup_cgroup_for_pid, ensure_dir_fatal_eq, hv, h1, h2]
        · intro ev hev
          rcases List.mem_append.mp hev with h | h
          · exact (hmk _ _).1 ev h
          · exact (hmk _ _).1 ev h
        · rw [List.countP_append, (hmk _ _).2, (hmk _ _).2]
          omega
      | true =>
        cases h3 : dir_tolerated e.dir_group with
        | false =>
          refine ⟨(ensure_dir e.dir_cgroup "/sys/fs/cgroup").2 ++
            (ensure_dir e.dir_base "/sys/fs/cgroup/swapout").2 ++
            (ensure_dir e.dir_group
              ("/sys/fs/cgroup/swapout/" ++ toString pid)).2, [], ?_, ?_,
            by simp, ?_⟩
          · simp [setup_cgroup_for_pid, ensure_dir_fatal_eq, hv, h1, h2, h3]
          · intro ev hev
            rcases List.mem_append.mp hev with h | h
            · rcases List.mem_append.mp h with h' | h'
              · exact (hmk _ _).1 ev h'
              · exact (hmk _ _).1 ev h'
            · exact (hmk _ _).1 ev h
          · rw [List.countP_append, List.countP_append, (hmk _ _).2,
              (hmk _ _).2, (hmk _ _).2]
            omega
        | true =>
          rw [setup_reduce_v2 e pid hv h1 h2 h3,
            setup_backup_and_migrate_trace]
          refine ⟨((ensure_dir e.dir_cgroup "/sys/fs/cgroup").2 ++
              (ensure_dir e.dir_base "/sys/fs/cgroup/swapout").2 ++
              (ensure_dir e.dir_group
                ("/sys/fs/cgroup/swapout/" ++ toString pid)).2) ++
              backup_events e,
            [event.fwrite (backed_ctx e _).procs_path (toString pid ++ "\n")
              e.procs_write_ok], rfl, ?_, ?_, ?_⟩
          · intro ev hev
            rcases List.mem_append.mp hev with h | h
            · rcases List.mem_append.mp h with h' | h'
              · rcases List.mem_append.mp h' with h'' | h''
                · exact (hmk _ _).1 ev h''
                · exact (hmk _ _).1 ev h''
              · exact (hmk _ _).1 ev h'
            · exact backup_events_no_fwrite e ev h
          · intro ev hev
            simp at hev
            subst hev; rfl
          · rw [List.countP_append, List.countP_append, List.countP_append,
              (hmk _ _).2, (hmk _ _).2, (hmk _ _).2]
            simpa using backup_events_capture_le e
  | CGROUP_V1 =>
    cases h1 : dir_tolerated e.dir_cgroup with
    | false =>
      refine ⟨(ensure_dir e.dir_cgroup "/sys/fs/cgroup/memory").2, [], ?_,
        (hmk _ _).1, by simp, by rw [(hmk _ _).2]; omega⟩
      simp [setup_cgroup_for_pid, ensure_dir_fatal_eq, hv, h1]
    | true =>
      cases h2 : dir_tolerated e.dir_base with
      | false =>
        refine ⟨(ensure_dir e.dir_cgroup "/sys/fs/cgroup/memory").2 ++
          (ensure_dir e.dir_base "/sys/fs/cgroup/memory/swapout").2, [], ?_,
          ?_, by simp, ?_⟩
        · simp [setup_cgroup_for_pid, ensure_dir_fatal_eq, hv, h1, h2]
        · intro ev hev
          rcases List.mem_append.mp hev with h | h
          · exact (hmk _ _).1 ev h
          · exact (hmk _ _).1 ev h
        · rw [List.countP_append, (hmk _ _).2, (hmk _ _).2]
          omega
      | true =>
        cases h3 : dir_tolerated e.dir_group with
        | false =>
          refine ⟨(ensure_dir e.dir_cgroup "/sys/fs/cgroup/memory").2 ++
            (ensure_dir e.dir_base "/sys/fs/cgroup/memory/swapout").2 ++
            (ensure_dir e.dir_group
              ("/sys/fs/cgroup/memory/swapout/" ++ toString pid)).2, [], ?_,
            ?_, by simp, ?_⟩
          · simp [setup_cgroup_for_pid, ensure_dir_fatal_eq, hv, h1, h2, h3]
          · intro ev hev
            rcases List.mem_append.mp hev with h | h
            · rcases List.mem_append.mp h with h' | h'
              · exact (hmk _ _).1 ev h'
              · exact (hmk _ _).1 ev h'
            · exact (hmk _ _).1 ev h
          · rw [List.countP_append, List.countP_append, (hmk _ _).2,
              (hmk _ _).2, (hmk _ _).2]
            omega
        | true =>
          rw [setup_reduce_v1 e pid hv h1 h2 h3,
            setup_backup_and_migrate_trace]
          refine ⟨((ensure_dir e.dir_cgroup "/sys/fs/cgroup/memory").2 ++
              (ensure_dir e.dir_base "/sys/fs/cgroup/memory/swapout").2 ++
              (ensure_dir e.dir_group
                ("/sys/fs/cgroup/memory/swapout/" ++ toString pid)).2) ++
              backup_events e,
            [event.fwrite (backed_ctx e _).procs_path (toString pid ++ "\n")
              e.procs_write_ok], rfl, ?_, ?_, ?_⟩
          · intro ev hev
            rcases List.mem_append.mp hev with h | h
            · rcases List.mem_append.mp h with h' | h'
              · rcases List.mem_append.mp h' with h'' | h''
                · exact (hmk _ _).1 ev h''
                · exact (hmk _ _).1 ev h''
              · exact (hmk _ _).1 ev h'
            · exact backup_events_no_fwrite e ev h
          · intro ev hev
            simp at hev
            subst hev; rfl
          · rw [List.countP_append, List.countP_append, List.countP_append,
              (hmk _ _).2, (hmk _ _).2, (hmk _ _).2]
            simpa using backup_events_capture_le e

theorem apply_no_capture (e : env_t) (ctx : cgroup_ctx_t) (m : Int) :
    ∀ ev ∈ (apply_low_limit e ctx m).2, is_capture ev = false := by
  rw [apply_low_limit_trace]
  intro ev hev
  simp at hev
  subst hev; rfl

theorem restore_no_capture (e : env_t) (ctx : cgroup_ctx_t) :
    ∀ ev ∈ restore_limit e ctx, is_capture ev = false := by
  unfold restore_limit
  split
  · intro ev hev
    simp at hev
    subst hev; rfl
  · intro ev hev
    simp at hev
    rcases hev with h | h <;> (subst h; rfl)

theorem cleanup_no_capture (e : env_t) (ctx : cgroup_ctx_t) :
    ∀ ev ∈ cleanup_cgroup e ctx, is_capture ev = false := by
  unfold cleanup_cgroup
  split
  · intro ev hev
    simp at hev
    subst hev; rfl
  · intro ev hev
    simp at hev
    rcases hev with h | h <;> (subst h; rfl)

theorem poll_no_capture (e : env_t) (pid target : Int) (ivl : ℚ) (i f : Nat) :
    ∀ ev ∈ (poll_from e pid target ivl i f).2, is_capture ev = false :=
  fun ev hev =>
    (sample_sleep_not_control (poll_events e pid target ivl f i ev hev)).2.2

/-- Reduction of `main_run` when setup fails: the trace is the setup
trace alone and the exit code is 1. -/
theorem main_run_setup_fail (e : env_t) (pid : Int) (cfg : run_config)
    (hpid : 0 < pid) (hproc : e.proc_pid_exists = true)
    (hsf : (setup_cgroup_for_pid e pid).1 ≠ 0) :
    main_run e .opt_done (some pid) cfg =
      (1, (setup_cgroup_for_pid e pid).2.2) := by
  have h1 : ¬ pid ≤ 0 := not_le.mpr hpid
  simp only [main_run, h1, if_false, hproc, Bool.not_true, ite_false]
  rw [if_pos hsf]
  simp

/-- Captures across a whole run: at most one, and all of them precede
every write attempt. -/
theorem main_capture_once_before_writes (e : env_t) (pid : Int)
    (cfg : run_config) (hpid : 0 < pid) (hproc : e.proc_pid_exists = true) :
    (main_run e .opt_done (some pid) cfg).2.countP is_capture ≤ 1 ∧
    ∃ t1 t2, (main_run e .opt_done (some pid) cfg).2 = t1 ++ t2 ∧
      (∀ ev ∈ t1, is_fwrite_ev ev = false) ∧
      (∀ ev ∈ t2, is_capture ev = false) := by
  obtain ⟨t1, t2, hsp, hfw, hcap, hcnt⟩ := setup_trace_split e pid
  by_cases hok : (setup_cgroup_for_pid e pid).1 = 0
  · have hrest : ∀ ev ∈
        ((apply_low_limit e (setup_cgroup_for_pid e pid).2.1 cfg.limit_mb).2 ++
          (poll_from e pid cfg.target_rss_kb cfg.interval 0
            cfg.max_iter.toNat).2 ++
          restore_limit e (setup_cgroup_for_pid e pid).2.1 ++
          cleanup_cgroup e (setup_cgroup_for_pid e pid).2.1),
        is_capture ev = false := by
      intro ev hev
      rcases List.mem_append.mp hev with h | h
      · rcases List.mem_append.mp h with h' | h'
        · rcases List.mem_append.mp h' with h'' | h''
          · exact apply_no_capture e _ _ ev h''
          · exact poll_no_capture e pid _ _ _ _ ev h''
        · exact restore_no_capture e _ ev h'
      · exact cleanup_no_capture e _ ev h
    have hrest2 : ∀ ev ∈
        ((apply_low_limit e (setup_cgroup_for_pid e pid).2.1 cfg.limit_mb).2 ++
          restore_limit e (setup_cgroup_for_pid e pid).2.1 ++
          cleanup_cgroup e (setup_cgroup_for_pid e pid).2.1),
        is_capture ev = false := by
      intro ev hev
      rcases List.mem_append.mp hev with h | h
      · rcases List.mem_append.mp h with h' | h'
        · exact apply_no_capture e _ _ ev h'
        · exact restore_no_capture e _ ev h'
      · exact cleanup_no_capture e _ ev h
    cases hLW : e.limit_write_ok with
    | true =>
      rw [main_run_after_apply e pid cfg hpid hproc hok hLW]
      dsimp only
      rw [hsp]
      refine ⟨?_, t1,
        t2 ++ ((apply_low_limit e (setup_cgroup_for_pid e pid).2.1
            cfg.limit_mb).2 ++
          (poll_from e pid cfg.target_rss_kb cfg.interval 0
            cfg.max_iter.toNat).2 ++
          restore_limit e (setup_cgroup_for_pid e pid).2.1 ++
          cleanup_cgroup e (setup_cgroup_for_pid e pid).2.1), ?_, hfw, ?_⟩
      · rw [List.countP_append, List.countP_append, List.countP_append,
          List.countP_append, List.countP_append]
        have hz : ∀ (l : List event), (∀ ev ∈ l, is_capture ev = false) →
            l.countP is_capture = 0 := fun l hl =>
          List.countP_eq_zero.mpr fun ev hev => by simp [hl ev hev]
        have h2 := hz t2 hcap
        have ha := hz _ (apply_no_capture e (setup_cgroup_for_pid e pid).2.1
          cfg.limit_mb)
        have hp := hz _ (poll_no_capture e pid cfg.target_rss_kb cfg.interval
          0 cfg.max_iter.toNat)
        have hr := hz _ (restore_no_capture e (setup_cgroup_for_pid e pid).2.1)
        have hc := hz _ (cleanup_no_capture e (setup_cgroup_for_pid e pid).2.1)
        omega
      · simp [List.append_assoc]
      · intro ev hev
        rcases List.mem_append.mp hev with h | h
        · exact hcap ev h
        · exact hrest ev h
    | false =>
      rw [main_run_apply_fail e pid cfg hpid hproc hok hLW]
      dsimp only
      rw [hsp]
      refine ⟨?_, t1,
        t2 ++ ((apply_low_limit e (setup_cgroup_for_pid e pid).2.1
            cfg.limit_mb).2 ++
          restore_limit e (setup_cgroup_for_pid e pid).2.1 ++
          cleanup_cgroup e (setup_cgroup_for_pid e pid).2.1), ?_, hfw, ?_⟩
      · rw [List.countP_append, List.countP_append, List.countP_append,
          List.countP_append]
        have hz : ∀ (l : List event), (∀ ev ∈ l, is_capture ev = false) →
            l.countP is_capture = 0 := fun l hl =>
          List.countP_eq_zero.mpr fun ev hev => by simp [hl ev hev]
        have h2 := hz t2 hcap
        have ha := hz _ (apply_no_capture e (setup_cgroup_for_pid e pid).2.1
          cfg.limit_mb)
        have hr := hz _ (restore_no_capture e (setup_cgroup_for_pid e pid).2.1)
        have hc := hz _ (cleanup_no_capture e (setup_cgroup_for_pid e pid).2.1)
        omega
      · simp [List.append_assoc]
      · intro ev hev
        rcases List.mem_append.mp hev with h | h
        · exact hcap ev h
        · exact hrest2 ev h
  · rw [main_run_setup_fail e pid cfg hpid hproc hok]
    dsimp only
    rw [hsp]
    refine ⟨?_, t1, t2, rfl, hfw, hcap⟩
    rw [List.countP_append]
    have h2 : t2.countP is_capture = 0 :=
      List.countP_eq_zero.mpr fun ev hev => by simp [hcap ev hev]
    omega

/-- C6 as amended: `groupPath` is non-empty exactly when the version was
detected and both parent directory steps passed — it is filled in
before the per-pid directory creation and the pid write, so it stays
non-empty when those later steps fail; and `originalLimit` is captured
at most once per run, before any file write (in particular before the
first write to `limitPath`). -/
theorem claim_C6_group_dir_and_capture_invariant (e : env_t) (pid : Int)
    (cfg : run_config) (hpid : 0 < pid) (hproc : e.proc_pid_exists = true) :
    ((setup_cgroup_for_pid e pid).2.1.group_dir ≠ "" ↔
      (detect_cgroup_version e ≠ .CGROUP_NONE ∧
        dir_tolerated e.dir_cgroup = true ∧
        dir_tolerated e.dir_base = true)) ∧
    (main_run e .opt_done (some pid) cfg).2.countP is_capture ≤ 1 ∧
    ∃ t1 t2, (main_run e .opt_done (some pid) cfg).2 = t1 ++ t2 ∧
      (∀ ev ∈ t1, is_fwrite_ev ev = false) ∧
      (∀ ev ∈ t2, is_capture ev = false) := by
  obtain ⟨hcnt, hsplit⟩ := main_capture_once_before_writes e pid cfg hpid hproc
  exact ⟨setup_group_dir_ne_iff e pid, hcnt, hsplit⟩

/-- Witness for the amended C6 at the environment whose per-pid mkdir
fails: `groupPath` is non-empty (parents passed), one capture, and it
precedes every write attempt. -/
theorem claim_C6_witness :
    ((setup_cgroup_for_pid env_badgroup 4).2.1.group_dir ≠ "" ↔
      (detect_cgroup_version env_badgroup ≠ .CGROUP_NONE ∧
        dir_tolerated env_badgroup.dir_cgroup = true ∧
        dir_tolerated env_badgroup.dir_base = true)) ∧
    (main_run env_badgroup .opt_done (some 4) default_config).2.countP
      is_capture ≤ 1 ∧
    ∃ t1 t2, (main_run env_badgroup .opt_done (some 4) default_config).2 =
        t1 ++ t2 ∧
      (∀ ev ∈ t1, is_fwrite_ev ev = false) ∧
      (∀ ev ∈ t2, is_capture ev = false) :=
  claim_C6_group_dir_and_capture_invariant env_badgroup 4 default_config
    (by decide) rfl

/-- Like `env_good` but `/proc/<pid>` is absent at startup. -/
def env_noproc : env_t := { env_good with proc_pid_exists := false }

/-- Like `env_good` but the limit-apply write fails. -/
def env_nowrite : env_t := { env_good with limit_write_ok := false }

/-- C4: the exit code of every path. 0 on help; 1 on an unknown option;
1 on a missing positional pid; 1 on a non-positive (invalid) pid; 1 on a
missing `/proc/<pid>`; 1 on provisioning failure; 1 on limit-apply
failure; and 0 whenever the limit was applied — whichever way the poll
loop then stops (Converged, ProcessVanished or TimedOut, i.e. for every
`status_file` oracle). -/
theorem claim_C4_exit_codes (e : env_t) (pid_arg : Option Int) (pid : Int)
    (cfg : run_config) :
    (main_run e .opt_help pid_arg cfg).1 = 0 ∧
    (main_run e .opt_bad pid_arg cfg).1 = 1 ∧
    (main_run e .opt_done none cfg).1 = 1 ∧
    (pid ≤ 0 → (main_run e .opt_done (some pid) cfg).1 = 1) ∧
    (0 < pid → e.proc_pid_exists = false →
      (main_run e .opt_done (some pid) cfg).1 = 1) ∧
    (0 < pid → e.proc_pid_exists = true →
      (setup_cgroup_for_pid e pid).1 ≠ 0 →
      (main_run e .opt_done (some pid) cfg).1 = 1) ∧
    (0 < pid → e.proc_pid_exists = true →
      (setup_cgroup_for_pid e pid).1 = 0 → e.limit_write_ok = false →
      (main_run e .opt_done (some pid) cfg).1 = 1) ∧
    (0 < pid → e.proc_pid_exists = true →
      (setup_cgroup_for_pid e pid).1 = 0 → e.limit_write_ok = true →
      (main_run e .opt_done (some pid) cfg).1 = 0) := by
  refine ⟨rfl, rfl, rfl, ?_, ?_, ?_, ?_, ?_⟩
  · intro h
    simp [main_run, h]
  · intro hp h0
    simp [main_run, not_le.mpr hp, h0]
  · intro hp hpr hsf
    rw [main_run_setup_fail e pid cfg hp hpr hsf]
  · intro hp hpr hok hLW
    rw [main_run_apply_fail e pid cfg hp hpr hok hLW]
  · intro hp hpr hok hLW
    rw [main_run_after_apply e pid cfg hp hpr hok hLW]

/-- Witness for C4: one concrete run per exit path. -/
theorem claim_C4_witness :
    (main_run env_good .opt_help (some 7) default_config).1 = 0 ∧
    (main_run env_good .opt_bad (some 7) default_config).1 = 1 ∧
    (main_run env_good .opt_done none default_config).1 = 1 ∧
    (main_run env_good .opt_done (some 0) default_config).1 = 1 ∧
    (main_run env_noproc .opt_done (some 7) default_config).1 = 1 ∧
    (main_run env_none .opt_done (some 3) default_config).1 = 1 ∧
    (main_run env_nowrite .opt_done (some 7) default_config).1 = 1 ∧
    (main_run env_good .opt_done (some 7) default_config).1 = 0 :=
  ⟨(claim_C4_exit_codes env_good (some 7) 7 default_config).1,
   (claim_C4_exit_codes env_good (some 7) 7 default_config).2.1,
   (claim_C4_exit_codes env_good (some 7) 7 default_config).2.2.1,
   (claim_C4_exit_codes env_good (some 0) 0 default_config).2.2.2.1
     (by decide),
   (claim_C4_exit_codes env_noproc (some 7) 7 default_config).2.2.2.2.1
     (by decide) rfl,
   (claim_C4_exit_codes env_none (some 3) 3 default_config).2.2.2.2.2.1
     (by decide) rfl (by decide),
   (claim_C4_exit_codes env_nowrite (some 7) 7 default_config).2.2.2.2.2.2.1
     (by decide) rfl (by decide) rfl,
   (claim_C4_exit_codes env_good (some 7) 7 default_config).2.2.2.2.2.2.2
     (by decide) rfl (by decide) rfl⟩

theorem meminfo_scan_skip (ls : List String)
    (h : ∀ l ∈ ls, starts_with "VmRSS:" l = false ∧
      starts_with "VmSwap:" l = false) :
    ∀ acc, ls.foldl meminfo_scan acc = acc := by
  induction ls with
  | nil => intro acc; rfl
  | cons x xs ih =>
    intro acc
    rw [List.foldl_cons]
    have hx := h x (by simp)
    have hstep : meminfo_scan acc x = acc := by
      unfold meminfo_scan
      rw [if_neg (by simp [hx.1]), if_neg (by simp [hx.2])]
    rw [hstep]
    exact ih (fun l hl => h l (by simp [hl])) acc

/-- C10: if the status file opens but holds no `VmRSS:` or `VmSwap:`
line, the sampler returns 0/0 (not an error), and since every valid
configuration has a positive target, the very first such sample stops
the loop as Converged after exactly one sample. -/
theorem claim_C10_missing_fields_converge (e : env_t) (pid : Int)
    (cfg : run_config) (lines : List String) (hvc : valid_config cfg)
    (hfile : e.status_file 0 = some lines)
    (hnone : ∀ l ∈ lines, starts_with "VmRSS:" l = false ∧
      starts_with "VmSwap:" l = false) :
    read_proc_meminfo e pid 0 = some ⟨pid, 0, 0⟩ ∧
    poll_from e pid cfg.target_rss_kb cfg.interval 0 cfg.max_iter.toNat =
      (true, [event.sample_taken 0]) := by
  have hread : read_proc_meminfo e pid 0 = some ⟨pid, 0, 0⟩ := by
    unfold read_proc_meminfo
    rw [hfile]
    show some (proc_meminfo_t.mk pid (lines.foldl meminfo_scan (0, 0)).1
      (lines.foldl meminfo_scan (0, 0)).2) = some ⟨pid, 0, 0⟩
    rw [meminfo_scan_skip lines hnone (0, 0)]
  refine ⟨hread, ?_⟩
  have hstop : stop_b e pid cfg.target_rss_kb 0 = true := by
    unfold stop_b
    rw [hread]
    exact decide_eq_true (le_of_lt hvc.2.1)
  have hN : 0 < cfg.max_iter.toNat := by
    have := hvc.2.2.2
    omega
  obtain ⟨f, hf⟩ : ∃ f, cfg.max_iter.toNat = f + 1 :=
    ⟨cfg.max_iter.toNat - 1, by omega⟩
  rw [hf]
  exact poll_from_stop e pid cfg.target_rss_kb cfg.interval 0 f hstop

/-- Environment whose status file has no memory fields at all. -/
def env_nofields : env_t := { env_good with
  status_file := fun _ => some ["Name:\tfoo", "State:\tR (running)"] }

/-- Witness for C10 at a concrete fieldless status file. -/
theorem claim_C10_witness :
    read_proc_meminfo env_nofields 7 0 = some ⟨7, 0, 0⟩ ∧
    poll_from env_nofields 7 default_config.target_rss_kb
      default_config.interval 0 default_config.max_iter.toNat =
      (true, [event.sample_taken 0]) :=
  claim_C10_missing_fields_converge env_nofields 7 default_config
    ["Name:\tfoo", "State:\tR (running)"]
    ⟨by norm_num [default_config], by norm_num [default_config],
      by norm_num [default_config], by norm_num [default_config]⟩ rfl
    (by decide)

end Swapout
